import Mathlib

/-!
Verification of the tubely upload-processing pipeline
(`handler_upload_video.go`, `handler_upload_thumbnail.go`).

The Go source is embedded shallowly: pure computations become Lean
functions over `Nat`/`Int`/`Rat`/`String`; calls to external
collaborators (database, S3, ffprobe, ffmpeg, the multipart parser)
are modelled by oracle records whose fields hold each collaborator's
outcome for the request, and the handler becomes a function from the
oracle to a result record carrying the HTTP status, the ordered event
trace of collaborator calls, the final database state and the sets of
temporary files created and removed.  The source's `float64` (IEEE
binary64) arithmetic is modelled bit-faithfully: `rne` implements
round-to-nearest-even over integer fractions, and `classifyFloat`
runs the exact sequence of rounded operations the Go code performs.
The exact-rational idealization of the same formula
(`floorRatio`/`classifyRatio`), which the design document's words
describe, is kept alongside to compare the two: they disagree at
concrete inputs, which several theorems below exhibit.
-/

namespace Tubely

set_option maxRecDepth 100000
/-- One entry of the `streams` array that ffprobe reports: the pixel
width and height of a stream, as decoded from its JSON output
(`Width`, `Height` are Go `int`s). -/
structure StreamDim where
  width : Int
  height : Int
deriving DecidableEq

/-- Modelled from the spec's words, for comparison with the source's
floating-point computation: the exact rational value of
`floor((width/height)*100)/100`, the idealized two-decimal floored
quotient the design document describes.  The source computes this
quantity in binary64 arithmetic (`goFloatRatio` below), and the two
can differ at concrete inputs. -/
def floorRatio (width height : ℚ) : ℚ :=
  ((⌊(width / height) * 100⌋ : ℤ) : ℚ) / 100

/-- Classification of the exact idealized ratio with the bands of
src/handler_upload_video.go lines 199–204: "9:16" on (0.54, 0.58),
"16:9" on (1.74, 1.78), "other" everywhere else.  This is the
spec-side idealization; the source's binary64 classifier is
`classifyFloat` below.  It also serves as the classifier inside the
handler embedding, whose theorems depend only on the inspector's
error/ok structure, not on which classifier string is produced. -/
def classifyRatio (width height : ℚ) : String :=
  if 0.54 < floorRatio width height ∧ floorRatio width height < 0.58 then "9:16"
  else if 1.74 < floorRatio width height ∧ floorRatio width height < 1.78 then "16:9"
  else "other"

/-- Outcome of the external ffprobe invocation plus JSON decoding, the
part of `getVideoAspectRatio` before the arithmetic: the command can
fail (`cmd.Output()` error), its stdout can fail to unmarshal, or it
yields a list of streams. -/
inductive FFProbeOutcome where
  | invokeError
  | parseError
  | streams (l : List StreamDim)
deriving DecidableEq

/-- Error/ok skeleton of `getVideoAspectRatio`
(src/handler_upload_video.go lines 170–205) with the spec-idealized
exact classifier: invoke ffprobe, decode, reject an empty stream list,
then classify the first stream's width/height.  Used inside the
handler embedding, whose theorems depend only on the error/ok
structure; the bit-faithful inspector is `getVideoAspectRatioF`. -/
def getVideoAspectRatio (probe : FFProbeOutcome) : Except String String :=
  match probe with
  | .invokeError => .error "ffprobe error"
  | .parseError => .error "could not parse ffprobe output"
  | .streams [] => .error "no video streams found"
  | .streams (s :: _) => .ok (classifyRatio (s.width : ℚ) (s.height : ℚ))

/-- Fuel-bounded floor of the base-2 logarithm (`log2F fuel n` is
`⌊log2 n⌋` for `1 ≤ n < 2^fuel`); written with a bare `Nat.rec` so
that kernel evaluation stays cheap. -/
def log2F (fuel : ℕ) : ℕ → ℕ :=
  Nat.rec (motive := fun _ => ℕ → ℕ) (fun _ => 0)
    (fun _ ih n => if n ≤ 1 then 0 else ih (n / 2) + 1) fuel

/-- Pack a rounded significand `m` scaled by `2 ^ e` into an exact
fraction with a positive (power-of-two or unit) denominator. -/
def mkPair (m : ℕ) (e : Int) : ℕ × ℕ :=
  if 0 ≤ e then (m * 2 ^ e.toNat, 1) else (m, 2 ^ (-e).toNat)

/-- Round-to-nearest-even of the fraction `n/d` to an IEEE binary64
value (53-bit significand), returned as an exact unreduced fraction.
Faithful to binary64 for all values arising from Go `int` widths and
heights (no overflow, underflow or subnormals occur in that range; the
fuel 512 covers every intermediate magnitude there with a wide
margin).  `n = 0` or `d = 0` returns 0. -/
def rne (n d : ℕ) : ℕ × ℕ :=
  if n = 0 ∨ d = 0 then (0, 1)
  else
    let e0 : Int := (log2F 512 n : Int) - (log2F 512 d : Int)
    let ge : Bool := if 0 ≤ e0 then d * 2 ^ e0.toNat ≤ n else d ≤ n * 2 ^ (-e0).toNat
    let e : Int := if ge then e0 else e0 - 1
    let s : Int := 52 - e
    let un : ℕ := if 0 ≤ s then n * 2 ^ s.toNat else n
    let ud : ℕ := if 0 ≤ s then d else d * 2 ^ (-s).toNat
    let q := un / ud
    let r := un % ud
    let m : ℕ :=
      if 2 * r < ud then q
      else if ud < 2 * r then q + 1
      else if q % 2 = 0 then q else q + 1
    mkPair m (e - 52)

/-- Strict comparison of two nonnegative fractions by
cross-multiplication; with binary64 values as exact fractions this is
exactly the Go `<` on (finite) float64 operands. -/
def fracLtB (x y : ℕ × ℕ) : Bool := x.1 * y.2 < y.1 * x.2

/-- The rational value of a fraction pair. -/
def fracVal (x : ℕ × ℕ) : ℚ := (x.1 : ℚ) / (x.2 : ℚ)

/-- The binary64 computation of the source line 198,
`ratio := math.Floor((width/height)*100) / 100`, for positive
operands: convert both ints to float64, divide, multiply by 100, floor
(exact on binary64), divide by 100 — every step rounded to
nearest-even exactly as the hardware does. -/
def goFloatRatio (a b : ℕ) : ℕ × ℕ :=
  let w := rne a 1
  let h := rne b 1
  let q := rne (w.1 * h.2) (w.2 * h.1)
  let p := rne (q.1 * 100) q.2
  let f := p.1 / p.2
  rne f 100

/-- The binary64 value of the source literal `0.54`. -/
def c054 : ℕ × ℕ := rne 54 100

/-- The binary64 value of the source literal `0.58`. -/
def c058 : ℕ × ℕ := rne 58 100

/-- The binary64 value of the source literal `1.74`. -/
def c174 : ℕ × ℕ := rne 174 100

/-- The binary64 value of the source literal `1.78`. -/
def c178 : ℕ × ℕ := rne 178 100

/-- The classification of src/handler_upload_video.go lines 198–204 in
bit-faithful binary64 arithmetic, for positive width and height. -/
def classifyFloatPos (a b : ℕ) : String :=
  if fracLtB c054 (goFloatRatio a b) && fracLtB (goFloatRatio a b) c058 then "9:16"
  else if fracLtB c174 (goFloatRatio a b) && fracLtB (goFloatRatio a b) c178 then "16:9"
  else "other"

/-- Total binary64 classifier over Go `int` dimensions.  The special
branches encode the IEEE outcomes the positive-fraction pipeline does
not cover: `height = 0` makes the quotient ±Inf (or NaN for 0/0), and
`width = 0` makes it ±0, so every strict band comparison is false and
the code returns "other"; with one negative operand the quotient,
floor and ratio are negative (the quotient's magnitude is at least
2⁻⁶⁴, far above the subnormal range, so it never rounds to -0), again
below every band.  Two negative operands behave exactly like their
absolute values. -/
def classifyFloat (width height : Int) : String :=
  if height = 0 then "other"
  else if width = 0 then "other"
  else if (0 < width ∧ height < 0) ∨ (width < 0 ∧ 0 < height) then "other"
  else classifyFloatPos width.natAbs height.natAbs

/-- Bit-faithful `getVideoAspectRatio`
(src/handler_upload_video.go lines 170–205): the error/ok skeleton
with the binary64 classifier on the first stream. -/
def getVideoAspectRatioF (probe : FFProbeOutcome) : Except String String :=
  match probe with
  | .invokeError => .error "ffprobe error"
  | .parseError => .error "could not parse ffprobe output"
  | .streams [] => .error "no video streams found"
  | .streams (s :: _) => .ok (classifyFloat s.width s.height)

/-- Outcome of the external ffmpeg invocation inside
`processVideoForFastStart`: whether `cmd.Run()` succeeded, the bytes
the process wrote to stderr, the textual form of the run error, and
the state of the output file after the process finished (`none` when
`os.Stat` fails because no file exists, `some n` when a file of `n`
bytes exists). -/
structure RemuxEnv where
  exitOk : Bool
  stderrOutput : String
  exitMsg : String
  outSize : Option Nat
deriving DecidableEq

/-- `processVideoForFastStart` (src/handler_upload_video.go lines
207–228): derive the output path, run ffmpeg with its stderr captured,
fail with the captured stderr attached on a run error, then verify the
output file can be stat'ed and is non-empty before returning its
path. -/
def processVideoForFastStart (inputFilePath : String) (env : RemuxEnv) : Except String String :=
  if env.exitOk = false then
    .error ("error processing video: " ++ env.stderrOutput ++ ", " ++ env.exitMsg)
  else
    match env.outSize with
    | none => .error "could not stat processed file"
    | some 0 => .error "processed file is empty"
    | some _ => .ok (inputFilePath ++ ".processing")

/-- Go `strings.Split(s, ",")` at the character-list level, as used on
the stored video URL in `dbVideoToSignedVideo`: the list of
comma-separated parts (always at least one part). -/
def splitOnComma : List Char → List (List Char)
  | [] => [[]]
  | c :: rest =>
    match splitOnComma rest with
    | [] => [[]]
    | p :: ps => if c = ',' then [] :: p :: ps else (c :: p) :: ps

/-- The durable reference serialization the handler persists
(src/handler_upload_video.go line 151): bucket and key joined by a
comma into one string. -/
def serializeVideoURL (bucket key : String) : String :=
  bucket ++ "," ++ key

/-- The parsing side of the stored reference, as performed by
`dbVideoToSignedVideo` (lines 234–239): split the stored string on
commas; with fewer than two parts there is no reference, otherwise the
first two parts are the bucket and the key. -/
def parseVideoURL (url : String) : Option (String × String) :=
  match splitOnComma url.data with
  | b :: k :: _ => some (⟨b⟩, ⟨k⟩)
  | _ => none

/-- A video record as the handler sees it: the owning user and the
stored video URL field (`database.Video`, restricted to the fields the
upload pipeline reads or writes). -/
structure Video where
  userID : String
  videoURL : Option String
deriving DecidableEq

/-- Replace a record's videoURL field (`dbVideo.VideoURL = &videoURL`). -/
def setVideoURL (v : Video) (u : Option String) : Video :=
  ⟨v.userID, u⟩

/-- `dbVideoToSignedVideo` (src/handler_upload_video.go lines
230–246), with `generatePresignedURL` abstracted as the `presign`
argument.  The second component of the result records whether the
signing primitive was invoked during the call. -/
def dbVideoToSignedVideo (presign : String → String → Except String String)
    (video : Video) : (Except String Video) × Bool :=
  match video.videoURL with
  | none => (.ok video, false)
  | some url =>
    match splitOnComma url.data with
    | b :: k :: _ =>
      match presign ⟨b⟩ ⟨k⟩ with
      | .error e => (.error e, true)
      | .ok presignedURL => (.ok (setVideoURL video (some presignedURL)), true)
    | _ => (.ok video, false)

/-- The 1 GiB upload ceiling (`const uploadLimit = 1 << 30`). -/
def uploadLimit : Nat := 1 <<< 30

/-- Pipeline events `handlerUploadVideo` emits in execution order:
a stage completing successfully (`classifyOk`, `remuxOk`,
`putSuccess`, `updateSuccess`) or a collaborator being invoked
(`putCall`, `updateCall`). -/
inductive Ev where
  | classifyOk
  | remuxOk
  | putCall
  | putSuccess
  | updateCall
  | updateSuccess
deriving DecidableEq

/-- Oracle for one ingestion request: the outcome of every external
interaction `handlerUploadVideo` performs, listed in source order.
`dbVideo` is both the `GetVideo` result and the record's state in the
store at request start (`none` when no record exists). -/
structure UploadEnv where
  videoIDOk : Bool
  tokenOk : Bool
  jwtUser : Option String
  dbVideo : Option Video
  bodyLength : Nat
  formParseOk : Bool
  parsedMediaType : Option String
  createTempOk : Bool
  tempName : String
  copyOk : Bool
  seekOk : Bool
  probe : FFProbeOutcome
  remux : RemuxEnv
  openProcessedOk : Bool
  assetPath : String
  s3Bucket : String
  putOk : Bool
  updateOk : Bool
  presign : Except String String

/-- What one run of the handler did: the HTTP status it responded
with, the event trace, the record store after the request, and the
temporary files that were created on disk and removed during the
request (the two `defer os.Remove` calls). -/
structure HandlerResult where
  status : Nat
  events : List Ev
  finalDB : Option Video
  created : List String
  removed : List String
deriving DecidableEq

/-- Files the external ffmpeg process leaves on disk during the remux
stage: the `.processing` output file exists after the process finishes
exactly when the oracle reports a size for it. -/
def remuxCreatedOf (env : UploadEnv) : List String :=
  if (env.remux.outSize).isSome = true then [env.tempName ++ ".processing"] else []

/-- The remux output path the handler removes by defer once
`processVideoForFastStart` has returned it. -/
def processedPathOf (env : UploadEnv) : String :=
  env.tempName ++ ".processing"

/-- `handlerUploadVideo` (src/handler_upload_video.go lines 26–168):
parse the id, authenticate, fetch the record, authorize the owner, cap
the body at 1 GiB and parse the multipart file, gate on the parsed
media type, stage to a temp file (removed by defer on every later
exit), classify via ffprobe, remux via ffmpeg (output removed by defer
only once the remux has returned successfully), put to S3, store the
comma-joined bucket/key reference, and respond with the freshly signed
record.  The external ffmpeg process creates the `.processing` output
file whenever `remux.outSize` is `some`, even if the remux step then
fails. -/
def handlerUploadVideo (env : UploadEnv) : HandlerResult :=
  if env.videoIDOk = false then ⟨400, [], env.dbVideo, [], []⟩
  else if env.tokenOk = false then ⟨401, [], env.dbVideo, [], []⟩
  else
    match env.jwtUser with
    | none => ⟨401, [], env.dbVideo, [], []⟩
    | some userID =>
      match env.dbVideo with
      | none => ⟨500, [], env.dbVideo, [], []⟩
      | some dbVideo =>
        if dbVideo.userID ≠ userID then ⟨401, [], env.dbVideo, [], []⟩
        else if uploadLimit < env.bodyLength ∨ env.formParseOk = false then
          ⟨400, [], env.dbVideo, [], []⟩
        else
          match env.parsedMediaType with
          | none => ⟨400, [], env.dbVideo, [], []⟩
          | some mediaType =>
            if mediaType ≠ "video/mp4" then ⟨400, [], env.dbVideo, [], []⟩
            else if env.createTempOk = false then ⟨500, [], env.dbVideo, [], []⟩
            else if env.copyOk = false then
              ⟨500, [], env.dbVideo, [env.tempName], [env.tempName]⟩
            else if env.seekOk = false then
              ⟨500, [], env.dbVideo, [env.tempName], [env.tempName]⟩
            else
              match getVideoAspectRatio env.probe with
              | .error _ => ⟨500, [], env.dbVideo, [env.tempName], [env.tempName]⟩
              | .ok aspect =>
                let directory := if aspect = "16:9" then "landscape"
                  else if aspect = "9:16" then "portrait" else "other"
                match processVideoForFastStart env.tempName env.remux with
                | .error _ =>
                  ⟨500, [.classifyOk], env.dbVideo,
                    env.tempName :: remuxCreatedOf env, [env.tempName]⟩
                | .ok processedFilePath =>
                  if env.openProcessedOk = false then
                    ⟨500, [.classifyOk, .remuxOk], env.dbVideo,
                      env.tempName :: remuxCreatedOf env, [processedFilePath, env.tempName]⟩
                  else
                    if env.putOk = false then
                      ⟨500, [.classifyOk, .remuxOk, .putCall], env.dbVideo,
                        env.tempName :: remuxCreatedOf env, [processedFilePath, env.tempName]⟩
                    else
                      let key := directory ++ "/" ++ env.assetPath
                      let updated := setVideoURL dbVideo
                        (some (serializeVideoURL env.s3Bucket key))
                      if env.updateOk = false then
                        ⟨500, [.classifyOk, .remuxOk, .putCall, .putSuccess, .updateCall],
                          env.dbVideo, env.tempName :: remuxCreatedOf env,
                          [processedFilePath, env.tempName]⟩
                      else
                        match (dbVideoToSignedVideo (fun _ _ => env.presign) updated).1 with
                        | .error _ =>
                          ⟨500, [.classifyOk, .remuxOk, .putCall, .putSuccess,
                              .updateCall, .updateSuccess],
                            some updated, env.tempName :: remuxCreatedOf env,
                            [processedFilePath, env.tempName]⟩
                        | .ok _ =>
                          ⟨200, [.classifyOk, .remuxOk, .putCall, .putSuccess,
                              .updateCall, .updateSuccess],
                            some updated, env.tempName :: remuxCreatedOf env,
                            [processedFilePath, env.tempName]⟩

/-- A fully successful ingestion request: a 1920×1080 mp4 under the
size cap, owned by the requesting user, with every collaborator
succeeding. -/
def envHappy : UploadEnv :=
  ⟨true, true, some "u1", some ⟨"u1", none⟩, 100, true, some "video/mp4", true,
   "tmp", true, true, .streams [⟨1920, 1080⟩], ⟨true, "", "", some 10⟩, true,
   "abc.mp4", "bkt", true, true, .ok "signedURL"⟩

/-- The same request as `envHappy`, with the storage put failing. -/
def envPutFail : UploadEnv :=
  ⟨true, true, some "u1", some ⟨"u1", none⟩, 100, true, some "video/mp4", true,
   "tmp", true, true, .streams [⟨1920, 1080⟩], ⟨true, "", "", some 10⟩, true,
   "abc.mp4", "bkt", false, true, .ok "signedURL"⟩

/-- The same request as `envHappy`, but ffmpeg exits successfully
while leaving an empty output file: the remux step fails after the
external process created the file. -/
def envLeak : UploadEnv :=
  ⟨true, true, some "u1", some ⟨"u1", none⟩, 100, true, some "video/mp4", true,
   "tmp", true, true, .streams [⟨1920, 1080⟩], ⟨true, "", "", some 0⟩, true,
   "abc.mp4", "bkt", true, true, .ok "signedURL"⟩

/-- A request failing at the io.Copy staging step. -/
def envCopyFail : UploadEnv :=
  ⟨true, true, some "u1", some ⟨"u1", none⟩, 100, true, some "video/mp4", true,
   "tmp", false, true, .invokeError, ⟨true, "", "", none⟩, true, "abc.mp4", "bkt",
   true, true, .ok "signedURL"⟩

/-- A request whose body is one byte over the 1 GiB cap, everything
else in order. -/
def envTooLarge : UploadEnv :=
  ⟨true, true, some "u1", some ⟨"u1", none⟩, uploadLimit + 1, true, some "video/mp4",
   true, "tmp", true, true, .invokeError, ⟨true, "", "", none⟩, true,
   "abc.mp4", "bkt", true, true, .ok "signedURL"⟩

/-- An otherwise-valid authenticated request whose target video id has
no record in the metadata store. -/
def envMissing : UploadEnv :=
  ⟨true, true, some "u1", none, 100, true, some "video/mp4", true, "tmp", true,
   true, .invokeError, ⟨true, "", "", none⟩, true, "abc.mp4", "bkt", true, true,
   .ok "signedURL"⟩

/-- A request declaring image/png as its content type. -/
def envPng : UploadEnv :=
  ⟨true, true, some "u1", some ⟨"u1", none⟩, 100, true, some "image/png", true,
   "tmp", true, true, .invokeError, ⟨true, "", "", none⟩, true, "abc.png", "bkt",
   true, true, .ok "signedURL"⟩

theorem mkPair_den_pos (m : ℕ) (e : Int) : 0 < (mkPair m e).2 := by
  unfold mkPair
  split
  · exact Nat.one_pos
  · exact pow_pos (by norm_num) _

theorem rne_den_pos (n d : ℕ) : 0 < (rne n d).2 := by
  unfold rne
  by_cases hc : n = 0 ∨ d = 0
  · rw [if_pos hc]
    exact Nat.one_pos
  · rw [if_neg hc]
    exact mkPair_den_pos _ _

theorem goFloatRatio_den_pos (a b : ℕ) : 0 < (goFloatRatio a b).2 := by
  unfold goFloatRatio
  exact rne_den_pos _ _

theorem fracLtB_iff (x y : ℕ × ℕ) (hx : 0 < x.2) (hy : 0 < y.2) :
    fracLtB x y = true ↔ fracVal x < fracVal y := by
  unfold fracLtB fracVal
  rw [decide_eq_true_eq,
    div_lt_div_iff (by exact_mod_cast hx) (by exact_mod_cast hy)]
  constructor <;> intro hlt <;> exact_mod_cast hlt

theorem classifyFloatPos_spec (a b : ℕ) :
    (classifyFloatPos a b = "9:16" ↔
      (fracVal c054 < fracVal (goFloatRatio a b) ∧ fracVal (goFloatRatio a b) < fracVal c058)) ∧
    (classifyFloatPos a b = "16:9" ↔
      (fracVal c174 < fracVal (goFloatRatio a b) ∧ fracVal (goFloatRatio a b) < fracVal c178)) ∧
    (classifyFloatPos a b = "other" ↔
      (¬ (fracVal c054 < fracVal (goFloatRatio a b) ∧ fracVal (goFloatRatio a b) < fracVal c058) ∧
       ¬ (fracVal c174 < fracVal (goFloatRatio a b) ∧ fracVal (goFloatRatio a b) < fracVal c178))) := by
  have hr := goFloatRatio_den_pos a b
  have h54 : (0:ℕ) < c054.2 := rne_den_pos 54 100
  have h58 : (0:ℕ) < c058.2 := rne_den_pos 58 100
  have h74 : (0:ℕ) < c174.2 := rne_den_pos 174 100
  have h78 : (0:ℕ) < c178.2 := rne_den_pos 178 100
  have hc1 : (fracLtB c054 (goFloatRatio a b) && fracLtB (goFloatRatio a b) c058) = true ↔
      (fracVal c054 < fracVal (goFloatRatio a b) ∧ fracVal (goFloatRatio a b) < fracVal c058) := by
    rw [Bool.and_eq_true, fracLtB_iff _ _ h54 hr, fracLtB_iff _ _ hr h58]
  have hc2 : (fracLtB c174 (goFloatRatio a b) && fracLtB (goFloatRatio a b) c178) = true ↔
      (fracVal c174 < fracVal (goFloatRatio a b) ∧ fracVal (goFloatRatio a b) < fracVal c178) := by
    rw [Bool.and_eq_true, fracLtB_iff _ _ h74 hr, fracLtB_iff _ _ hr h78]
  have h58_74 : fracVal c058 < fracVal c174 :=
    (fracLtB_iff c058 c174 h58 h74).mp (by decide)
  by_cases hb1 : fracVal c054 < fracVal (goFloatRatio a b) ∧ fracVal (goFloatRatio a b) < fracVal c058
  · have hb2 : ¬ (fracVal c174 < fracVal (goFloatRatio a b) ∧
        fracVal (goFloatRatio a b) < fracVal c178) := by
      rintro ⟨hgt, _⟩
      linarith [hb1.2]
    have hval : classifyFloatPos a b = "9:16" := by
      unfold classifyFloatPos
      rw [if_pos (hc1.mpr hb1)]
    rw [hval]
    exact ⟨iff_of_true rfl hb1, iff_of_false (by decide) hb2,
      iff_of_false (by decide) (fun hc => hc.1 hb1)⟩
  · have hn1 : ¬ ((fracLtB c054 (goFloatRatio a b) && fracLtB (goFloatRatio a b) c058) = true) :=
      fun hcc => hb1 (hc1.mp hcc)
    by_cases hb2 : fracVal c174 < fracVal (goFloatRatio a b) ∧
        fracVal (goFloatRatio a b) < fracVal c178
    · have hval : classifyFloatPos a b = "16:9" := by
        unfold classifyFloatPos
        rw [if_neg hn1, if_pos (hc2.mpr hb2)]
      rw [hval]
      exact ⟨iff_of_false (by decide) hb1, iff_of_true rfl hb2,
        iff_of_false (by decide) (fun hc => hc.2 hb2)⟩
    · have hn2 : ¬ ((fracLtB c174 (goFloatRatio a b) && fracLtB (goFloatRatio a b) c178) = true) :=
        fun hcc => hb2 (hc2.mp hcc)
      have hval : classifyFloatPos a b = "other" := by
        unfold classifyFloatPos
        rw [if_neg hn1, if_neg hn2]
      rw [hval]
      exact ⟨iff_of_false (by decide) hb1, iff_of_false (by decide) hb2,
        iff_of_true rfl ⟨hb1, hb2⟩⟩

theorem classifyFloat_pos_int (w h : Int) (hw : 0 < w) (hh : 0 < h) :
    classifyFloat w h = classifyFloatPos w.natAbs h.natAbs := by
  unfold classifyFloat
  rw [if_neg (by omega), if_neg (by omega), if_neg (by omega)]

/-- C1 amended: for every positive integer width and height, the
source classifies by the binary64 evaluation of
`floor((width/height)*100)/100`: "9:16" exactly when the computed
ratio lies in (0.54, 0.58), "16:9" exactly on (1.74, 1.78)
(comparisons against the binary64 values of those literals), and
"other" in all remaining cases; a computed ratio exactly equal to 0.54
or 0.58 yields "other".  The computed ratio can differ from the exact
idealized `floor((width/height)*100)/100`
(see `classifyFloat_boundary_counterexample`). -/
theorem classifyFloat_spec (w h : ℕ) (hw : 0 < w) (hh : 0 < h) :
    (classifyFloat (w : Int) (h : Int) = "9:16" ↔
      (fracVal c054 < fracVal (goFloatRatio w h) ∧ fracVal (goFloatRatio w h) < fracVal c058)) ∧
    (classifyFloat (w : Int) (h : Int) = "16:9" ↔
      (fracVal c174 < fracVal (goFloatRatio w h) ∧ fracVal (goFloatRatio w h) < fracVal c178)) ∧
    (classifyFloat (w : Int) (h : Int) = "other" ↔
      (¬ (fracVal c054 < fracVal (goFloatRatio w h) ∧ fracVal (goFloatRatio w h) < fracVal c058) ∧
       ¬ (fracVal c174 < fracVal (goFloatRatio w h) ∧ fracVal (goFloatRatio w h) < fracVal c178))) ∧
    (fracVal (goFloatRatio w h) = fracVal c054 → classifyFloat (w : Int) (h : Int) = "other") ∧
    (fracVal (goFloatRatio w h) = fracVal c058 → classifyFloat (w : Int) (h : Int) = "other") := by
  have hcast : classifyFloat (w : Int) (h : Int) = classifyFloatPos w h := by
    rw [classifyFloat_pos_int _ _ (by exact_mod_cast hw) (by exact_mod_cast hh)]
    simp [Int.natAbs_ofNat]
  have hspec := classifyFloatPos_spec w h
  have h54_74 : fracVal c054 < fracVal c174 :=
    (fracLtB_iff c054 c174 (rne_den_pos 54 100) (rne_den_pos 174 100)).mp (by decide)
  have h58_74 : fracVal c058 < fracVal c174 :=
    (fracLtB_iff c058 c174 (rne_den_pos 58 100) (rne_den_pos 174 100)).mp (by decide)
  rw [hcast]
  refine ⟨hspec.1, hspec.2.1, hspec.2.2, ?_, ?_⟩
  · intro heq
    refine hspec.2.2.mpr ⟨?_, ?_⟩
    · rintro ⟨hlt, _⟩
      rw [heq] at hlt
      exact lt_irrefl _ hlt
    · rintro ⟨hgt, _⟩
      rw [heq] at hgt
      linarith
  · intro heq
    refine hspec.2.2.mpr ⟨?_, ?_⟩
    · rintro ⟨_, hlt⟩
      rw [heq] at hlt
      exact lt_irrefl _ hlt
    · rintro ⟨hgt, _⟩
      rw [heq] at hgt
      linarith

/-- C1 counterexample: at width 58, height 100 the exact idealized
ratio is exactly 0.58 — which the claim's boundary clause maps to
Other — but the binary64 computation rounds 58/100 to just below
0.58, floors to 57, and the source returns "9:16" (Portrait). -/
theorem classifyFloat_boundary_counterexample :
    classifyFloat 58 100 = "9:16" ∧
    floorRatio (58 : ℚ) (100 : ℚ) = 0.58 := by
  constructor
  · decide
  · unfold floorRatio
    norm_num

/-- Witness for amended C1: 1080×1920 computes a ratio inside the
Portrait band and classifies "9:16"; 54×100 computes a ratio exactly
equal to the binary64 0.54 and classifies "other". -/
theorem classifyFloat_spec_witness :
    classifyFloat ((1080 : ℕ) : Int) ((1920 : ℕ) : Int) = "9:16" ∧
    classifyFloat ((54 : ℕ) : Int) ((100 : ℕ) : Int) = "other" := by
  constructor
  · exact (classifyFloat_spec 1080 1920 (by norm_num) (by norm_num)).1.mpr
      ⟨(fracLtB_iff c054 (goFloatRatio 1080 1920) (rne_den_pos 54 100)
          (goFloatRatio_den_pos 1080 1920)).mp (by decide),
       (fracLtB_iff (goFloatRatio 1080 1920) c058 (goFloatRatio_den_pos 1080 1920)
          (rne_den_pos 58 100)).mp (by decide)⟩
  · exact (classifyFloat_spec 54 100 (by norm_num) (by norm_num)).2.2.2.1
      (by rw [show goFloatRatio 54 100 = c054 from by decide])

/-- C7 amended: the bit-faithful Stream Inspector errors on each of
the three failure modes — invoke failure, parse failure, empty stream
list — and for a successfully parsed first stream with positive
dimensions returns "other" exactly when the binary64-computed ratio
lies outside both the Portrait and the Landscape bands; the computed
ratio can differ from the exact measured ratio
(see `inspector_inband_other_counterexample`). -/
theorem getVideoAspectRatioF_failure_modes (probe : FFProbeOutcome) :
    ((probe = .invokeError ∨ probe = .parseError ∨ probe = .streams []) →
      ∃ e, getVideoAspectRatioF probe = .error e) ∧
    (∀ s rest, probe = .streams (s :: rest) → 0 < s.width → 0 < s.height →
      (getVideoAspectRatioF probe = .ok "other" ↔
        (¬ (fracVal c054 < fracVal (goFloatRatio s.width.natAbs s.height.natAbs) ∧
            fracVal (goFloatRatio s.width.natAbs s.height.natAbs) < fracVal c058) ∧
         ¬ (fracVal c174 < fracVal (goFloatRatio s.width.natAbs s.height.natAbs) ∧
            fracVal (goFloatRatio s.width.natAbs s.height.natAbs) < fracVal c178)))) := by
  constructor
  · rintro (rfl | rfl | rfl)
    · exact ⟨_, rfl⟩
    · exact ⟨_, rfl⟩
    · exact ⟨_, rfl⟩
  · rintro s rest rfl hw hh
    have hok : getVideoAspectRatioF (.streams (s :: rest)) =
        .ok (classifyFloat s.width s.height) := rfl
    rw [hok, classifyFloat_pos_int s.width s.height hw hh]
    constructor
    · intro hother
      exact (classifyFloatPos_spec _ _).2.2.mp (by simpa using hother)
    · intro hbands
      rw [(classifyFloatPos_spec _ _).2.2.mpr hbands]

/-- C7 counterexample: for a 1633954547798682×917951993145327 stream
the exact measured ratio floors to 1.77, strictly inside the Landscape
band, yet the binary64 computation floors one unit higher and the
source returns "other" — so Other is not reserved for successfully
measured ratios outside the bands. -/
theorem inspector_inband_other_counterexample :
    getVideoAspectRatioF (.streams [⟨1633954547798682, 917951993145327⟩]) = .ok "other" ∧
    1.74 < floorRatio (1633954547798682 : ℚ) (917951993145327 : ℚ) ∧
    floorRatio (1633954547798682 : ℚ) (917951993145327 : ℚ) < 1.78 := by
  refine ⟨congrArg Except.ok (by decide), ?_, ?_⟩
  · unfold floorRatio
    norm_num
  · unfold floorRatio
    norm_num

/-- Witness for amended C7: an invoke failure yields an error, and a
1×1 stream (computed ratio 1.00, outside both bands) is a measurement
the inspector maps to "other". -/
theorem getVideoAspectRatioF_failure_modes_witness :
    (∃ e, getVideoAspectRatioF .invokeError = .error e) ∧
    (¬ (fracVal c054 < fracVal (goFloatRatio (1 : Int).natAbs (1 : Int).natAbs) ∧
        fracVal (goFloatRatio (1 : Int).natAbs (1 : Int).natAbs) < fracVal c058) ∧
     ¬ (fracVal c174 < fracVal (goFloatRatio (1 : Int).natAbs (1 : Int).natAbs) ∧
        fracVal (goFloatRatio (1 : Int).natAbs (1 : Int).natAbs) < fracVal c178)) :=
  ⟨(getVideoAspectRatioF_failure_modes .invokeError).1 (Or.inl rfl),
   ((getVideoAspectRatioF_failure_modes (.streams [⟨1, 1⟩])).2 ⟨1, 1⟩ [] rfl
      (by decide) (by decide)).mp (congrArg Except.ok (by decide))⟩

/-- C8: when the external process fails, the returned error contains
the captured stderr diagnostics; when the process succeeds, the remux
returns a path exactly when the output file exists with non-zero
size (and a ProcessingFailed-style error otherwise). -/
theorem processVideoForFastStart_spec (inputFilePath : String) (env : RemuxEnv) :
    (env.exitOk = false →
      ∃ s, processVideoForFastStart inputFilePath env = .error s ∧
        ∃ pre post, s.data = pre ++ env.stderrOutput.data ++ post) ∧
    (env.exitOk = true →
      ((∃ p, processVideoForFastStart inputFilePath env = .ok p) ↔
        (∃ n, env.outSize = some n ∧ n ≠ 0))) := by
  constructor
  · intro hfail
    refine ⟨"error processing video: " ++ env.stderrOutput ++ ", " ++ env.exitMsg,
      by rw [processVideoForFastStart, if_pos hfail], ?_⟩
    refine ⟨("error processing video: ").data, (", " ++ env.exitMsg).data, ?_⟩
    simp [String.data_append, List.append_assoc]
  · intro hok
    have hni : ¬ (env.exitOk = false) := by simp [hok]
    constructor
    · rintro ⟨p, hp⟩
      rw [processVideoForFastStart, if_neg hni] at hp
      match hs : env.outSize with
      | none => rw [hs] at hp; exact absurd hp (by simp)
      | some 0 => rw [hs] at hp; exact absurd hp (by simp)
      | some (n + 1) => exact ⟨n + 1, rfl, Nat.succ_ne_zero n⟩
    · rintro ⟨n, hs, hn⟩
      match n, hn with
      | n + 1, _ =>
        exact ⟨inputFilePath ++ ".processing", by
          rw [processVideoForFastStart, if_neg hni, hs]; rfl⟩

/-- Witness for C8: a failed run with stderr "boom" yields an error
containing "boom", and a successful run with a 5-byte output file
yields a path. -/
theorem processVideoForFastStart_spec_witness :
    (∃ s, processVideoForFastStart "in.mp4" ⟨false, "boom", "exit status 1", none⟩ = .error s ∧
        ∃ pre post, s.data = pre ++ (RemuxEnv.mk false "boom" "exit status 1" none).stderrOutput.data ++ post) ∧
    (∃ p, processVideoForFastStart "in.mp4" ⟨true, "", "", some 5⟩ = .ok p) :=
  ⟨(processVideoForFastStart_spec "in.mp4" ⟨false, "boom", "exit status 1", none⟩).1 rfl,
   ((processVideoForFastStart_spec "in.mp4" ⟨true, "", "", some 5⟩).2 rfl).mpr
     ⟨5, rfl, by decide⟩⟩

theorem splitOnComma_cons (c : Char) (rest : List Char) :
    splitOnComma (c :: rest) =
      match splitOnComma rest with
      | [] => [[]]
      | p :: ps => if c = ',' then [] :: p :: ps else (c :: p) :: ps := rfl

theorem splitOnComma_ne_nil : ∀ l : List Char, splitOnComma l ≠ []
  | [] => by simp [splitOnComma]
  | c :: rest => by
    unfold splitOnComma
    cases h : splitOnComma rest with
    | nil => simp
    | cons p ps => dsimp only; split <;> simp

theorem splitOnComma_no_comma (l : List Char) (h : ',' ∉ l) : splitOnComma l = [l] := by
  induction l with
  | nil => rfl
  | cons c rest ih =>
    have hc : c ≠ ',' := fun hc => h (hc ▸ List.mem_cons_self c rest)
    have hr : ',' ∉ rest := fun hm => h (List.mem_cons_of_mem c hm)
    unfold splitOnComma
    rw [ih hr]
    simp [hc]

theorem splitOnComma_append (b t : List Char) (hb : ',' ∉ b) :
    splitOnComma (b ++ ',' :: t) = b :: splitOnComma t := by
  induction b with
  | nil =>
    show splitOnComma (',' :: t) = [] :: splitOnComma t
    rw [splitOnComma_cons]
    cases h : splitOnComma t with
    | nil => exact absurd h (splitOnComma_ne_nil t)
    | cons p ps => simp
  | cons c b' ih =>
    have hc : c ≠ ',' := fun hcc => hb (hcc ▸ List.mem_cons_self c b')
    have hb' : ',' ∉ b' := fun hm => hb (List.mem_cons_of_mem c hm)
    show splitOnComma (c :: (b' ++ ',' :: t)) = (c :: b') :: splitOnComma t
    rw [splitOnComma_cons, ih hb']
    simp [hc]

/-- C9 counterexample: serialization is not round-trippable for every
bucket and key — a key containing the comma delimiter ("b,c") is
truncated at parse time. -/
theorem videoURL_roundtrip_counterexample :
    parseVideoURL (serializeVideoURL "a" "b,c") ≠ some ("a", "b,c") := by
  decide

/-- C9 amended: for every comma-free bucket and comma-free key,
serializing the pair and parsing the stored string back yields exactly
the original bucket and key. -/
theorem videoURL_roundtrip_amended (bucket key : String)
    (hb : ',' ∉ bucket.data) (hk : ',' ∉ key.data) :
    parseVideoURL (serializeVideoURL bucket key) = some (bucket, key) := by
  have hdata : (serializeVideoURL bucket key).data = bucket.data ++ ',' :: key.data := by
    simp only [serializeVideoURL, String.data_append, List.append_assoc]
    rfl
  unfold parseVideoURL
  rw [hdata, splitOnComma_append _ _ hb, splitOnComma_no_comma _ hk]

/-- Witness for amended C9 at a realistic bucket and key. -/
theorem videoURL_roundtrip_amended_witness :
    parseVideoURL (serializeVideoURL "tubely-videos" "landscape/abc.mp4") =
      some ("tubely-videos", "landscape/abc.mp4") :=
  videoURL_roundtrip_amended "tubely-videos" "landscape/abc.mp4" (by decide) (by decide)

/-- C10: a record whose stored location string is present but contains
no comma converts to itself — no error, raw string kept, and the
signing primitive is never invoked. -/
theorem dbVideoToSignedVideo_no_delimiter
    (presign : String → String → Except String String) (video : Video)
    (url : String) (hv : video.videoURL = some url) (h : ',' ∉ url.data) :
    dbVideoToSignedVideo presign video = (.ok video, false) := by
  unfold dbVideoToSignedVideo
  rw [hv]
  dsimp only
  rw [splitOnComma_no_comma _ h]

/-- Witness for C10: a stored URL with no comma passes through
unchanged even when signing would fail. -/
theorem dbVideoToSignedVideo_no_delimiter_witness :
    dbVideoToSignedVideo (fun _ _ => .error "unused") ⟨"owner", some "rawstring"⟩ =
      (.ok ⟨"owner", some "rawstring"⟩, false) :=
  dbVideoToSignedVideo_no_delimiter (fun _ _ => .error "unused")
    ⟨"owner", some "rawstring"⟩ "rawstring" rfl (by decide)

theorem processVideoForFastStart_ok_path (i : String) (e : RemuxEnv) (p : String)
    (h : processVideoForFastStart i e = .ok p) : p = i ++ ".processing" := by
  unfold processVideoForFastStart at h
  by_cases he : e.exitOk = false
  · rw [if_pos he] at h
    exact Except.noConfusion h
  · rw [if_neg he] at h
    match hs : e.outSize with
    | none =>
      rw [hs] at h
      have h2 : (Except.error "could not stat processed file" : Except String String) =
          Except.ok p := h
      exact Except.noConfusion h2
    | some 0 =>
      rw [hs] at h
      have h2 : (Except.error "processed file is empty" : Except String String) =
          Except.ok p := h
      exact Except.noConfusion h2
    | some (n + 1) =>
      rw [hs] at h
      have h2 : (Except.ok (i ++ ".processing") : Except String String) = Except.ok p := h
      injection h2 with h3
      exact h3.symm

/-- Exhaustive characterization of a handler run: an early exit with
no staged files, a staging failure removing the raw temp file, a
remux-stage failure that removes only the raw temp file while the
process's output (if any) stays on disk, or one of the post-remux
exits removing both files; the put/update branches carry their oracle
flags. -/
theorem handler_run_cases (env : UploadEnv) (r : HandlerResult)
    (hr : handlerUploadVideo env = r) :
    (∃ st, r = ⟨st, [], env.dbVideo, [], []⟩) ∨
    (r = ⟨500, [], env.dbVideo, [env.tempName], [env.tempName]⟩) ∨
    (r = ⟨500, [.classifyOk], env.dbVideo,
        env.tempName :: remuxCreatedOf env, [env.tempName]⟩) ∨
    (r = ⟨500, [.classifyOk, .remuxOk], env.dbVideo,
        env.tempName :: remuxCreatedOf env, [processedPathOf env, env.tempName]⟩) ∨
    (env.putOk = false ∧
      r = ⟨500, [.classifyOk, .remuxOk, .putCall], env.dbVideo,
        env.tempName :: remuxCreatedOf env, [processedPathOf env, env.tempName]⟩) ∨
    (env.putOk = true ∧ env.updateOk = false ∧
      r = ⟨500, [.classifyOk, .remuxOk, .putCall, .putSuccess, .updateCall],
        env.dbVideo, env.tempName :: remuxCreatedOf env,
        [processedPathOf env, env.tempName]⟩) ∨
    (env.putOk = true ∧ env.updateOk = true ∧ ∃ st v,
      r = ⟨st, [.classifyOk, .remuxOk, .putCall, .putSuccess, .updateCall, .updateSuccess],
        some v, env.tempName :: remuxCreatedOf env,
        [processedPathOf env, env.tempName]⟩) := by
  unfold handlerUploadVideo at hr
  by_cases h1 : env.videoIDOk = false
  · rw [if_pos h1] at hr
    exact Or.inl ⟨400, hr.symm⟩
  rw [if_neg h1] at hr
  by_cases h2 : env.tokenOk = false
  · rw [if_pos h2] at hr
    exact Or.inl ⟨401, hr.symm⟩
  rw [if_neg h2] at hr
  cases hjwt : env.jwtUser with
  | none =>
    rw [hjwt] at hr
    exact Or.inl ⟨401, hr.symm⟩
  | some userID =>
    rw [hjwt] at hr
    dsimp only at hr
    cases hdb : env.dbVideo with
    | none =>
      rw [hdb] at hr
      exact Or.inl ⟨500, hr.symm⟩
    | some dbVideo =>
      rw [hdb] at hr
      dsimp only at hr
      by_cases howner : dbVideo.userID ≠ userID
      · rw [if_pos howner] at hr
        exact Or.inl ⟨401, hr.symm⟩
      rw [if_neg howner] at hr
      by_cases hsz : uploadLimit < env.bodyLength ∨ env.formParseOk = false
      · rw [if_pos hsz] at hr
        exact Or.inl ⟨400, hr.symm⟩
      rw [if_neg hsz] at hr
      cases hmt : env.parsedMediaType with
      | none =>
        rw [hmt] at hr
        exact Or.inl ⟨400, hr.symm⟩
      | some mediaType =>
        rw [hmt] at hr
        dsimp only at hr
        by_cases hvt : mediaType ≠ "video/mp4"
        · rw [if_pos hvt] at hr
          exact Or.inl ⟨400, hr.symm⟩
        rw [if_neg hvt] at hr
        by_cases hct : env.createTempOk = false
        · rw [if_pos hct] at hr
          exact Or.inl ⟨500, hr.symm⟩
        rw [if_neg hct] at hr
        by_cases hcp : env.copyOk = false
        · rw [if_pos hcp] at hr
          exact Or.inr (Or.inl hr.symm)
        rw [if_neg hcp] at hr
        by_cases hsk : env.seekOk = false
        · rw [if_pos hsk] at hr
          exact Or.inr (Or.inl hr.symm)
        rw [if_neg hsk] at hr
        cases hprobe : getVideoAspectRatio env.probe with
        | error e =>
          rw [hprobe] at hr
          exact Or.inr (Or.inl hr.symm)
        | ok aspect =>
          rw [hprobe] at hr
          dsimp only at hr
          cases hrx : processVideoForFastStart env.tempName env.remux with
          | error e =>
            rw [hrx] at hr
            exact Or.inr (Or.inr (Or.inl hr.symm))
          | ok processedFilePath =>
            have hppeq : processedFilePath = env.tempName ++ ".processing" :=
              processVideoForFastStart_ok_path _ _ _ hrx
            rw [hrx] at hr
            dsimp only at hr
            rw [hppeq] at hr
            by_cases hop : env.openProcessedOk = false
            · rw [if_pos hop] at hr
              exact Or.inr (Or.inr (Or.inr (Or.inl hr.symm)))
            rw [if_neg hop] at hr
            by_cases hpt : env.putOk = false
            · rw [if_pos hpt] at hr
              exact Or.inr (Or.inr (Or.inr (Or.inr (Or.inl ⟨hpt, hr.symm⟩))))
            rw [if_neg hpt] at hr
            have hpt2 : env.putOk = true := by
              revert hpt
              cases env.putOk <;> simp
            by_cases hup : env.updateOk = false
            · rw [if_pos hup] at hr
              exact Or.inr (Or.inr (Or.inr (Or.inr (Or.inr
                (Or.inl ⟨hpt2, hup, hr.symm⟩)))))
            rw [if_neg hup] at hr
            have hup2 : env.updateOk = true := by
              revert hup
              cases env.updateOk <;> simp
            refine Or.inr (Or.inr (Or.inr (Or.inr (Or.inr (Or.inr ⟨hpt2, hup2, ?_⟩)))))
            split at hr
            · exact ⟨500, _, hr.symm⟩
            · exact ⟨200, _, hr.symm⟩

/-- C2: in every run the classification-completed and
remux-completed events lead the trace whenever a put call occurs; and
when the storage put fails the record store is left unchanged, no
metadata update is attempted, and a run that reached the put aborts
with 500.  A metadata update call occurs only in runs whose put
succeeded. -/
theorem handler_publish_ordering (env : UploadEnv) :
    (Ev.putCall ∈ (handlerUploadVideo env).events →
      ∃ t, (handlerUploadVideo env).events = [Ev.classifyOk, Ev.remuxOk, Ev.putCall] ++ t) ∧
    (env.putOk = false →
      (handlerUploadVideo env).finalDB = env.dbVideo ∧
      Ev.updateCall ∉ (handlerUploadVideo env).events ∧
      (Ev.putCall ∈ (handlerUploadVideo env).events →
        (handlerUploadVideo env).status = 500)) ∧
    (Ev.updateCall ∈ (handlerUploadVideo env).events →
      Ev.putSuccess ∈ (handlerUploadVideo env).events) := by
  rcases handler_run_cases env _ rfl with
    ⟨st, h⟩ | h | h | h | ⟨hp, h⟩ | ⟨hp, hu, h⟩ | ⟨hp, hu, st, v, h⟩ <;> rw [h]
  · exact ⟨fun hmem => absurd hmem (by simp),
      fun _ => ⟨rfl, by simp, fun hmem => absurd hmem (by simp)⟩,
      fun hmem => absurd hmem (by simp)⟩
  · exact ⟨fun hmem => absurd hmem (by simp),
      fun _ => ⟨rfl, by simp, fun hmem => absurd hmem (by simp)⟩,
      fun hmem => absurd hmem (by simp)⟩
  · exact ⟨fun hmem => absurd hmem (by simp),
      fun _ => ⟨rfl, by simp, fun hmem => absurd hmem (by simp)⟩,
      fun hmem => absurd hmem (by simp)⟩
  · exact ⟨fun hmem => absurd hmem (by simp),
      fun _ => ⟨rfl, by simp, fun hmem => absurd hmem (by simp)⟩,
      fun hmem => absurd hmem (by simp)⟩
  · exact ⟨fun _ => ⟨[], rfl⟩,
      fun _ => ⟨rfl, by simp, fun _ => rfl⟩,
      fun hmem => absurd hmem (by simp)⟩
  · refine ⟨fun _ => ⟨[Ev.putSuccess, Ev.updateCall], rfl⟩, ?_, fun _ => by simp⟩
    intro hpf
    rw [hpf] at hp
    exact Bool.noConfusion hp
  · refine ⟨fun _ => ⟨[Ev.putSuccess, Ev.updateCall, Ev.updateSuccess], rfl⟩, ?_,
      fun _ => by simp⟩
    intro hpf
    rw [hpf] at hp
    exact Bool.noConfusion hp

/-- C3 amended: the raw staged upload is removed on every exit path
after its creation, and the remux output file is removed on every exit
path of a run in which the remux step completed successfully; only
when the remux step itself fails can its output file survive the
request. -/
theorem tempfile_cleanup_amended (env : UploadEnv) :
    (env.tempName ∈ (handlerUploadVideo env).created →
      env.tempName ∈ (handlerUploadVideo env).removed) ∧
    (Ev.remuxOk ∈ (handlerUploadVideo env).events →
      processedPathOf env ∈ (handlerUploadVideo env).removed) := by
  rcases handler_run_cases env _ rfl with
    ⟨st, h⟩ | h | h | h | ⟨_, h⟩ | ⟨_, _, h⟩ | ⟨_, _, st, v, h⟩ <;> rw [h]
  · exact ⟨fun hmem => absurd hmem (by simp), fun hmem => absurd hmem (by simp)⟩
  · exact ⟨fun _ => by simp, fun hmem => absurd hmem (by simp)⟩
  · exact ⟨fun _ => by simp, fun hmem => absurd hmem (by simp)⟩
  · exact ⟨fun _ => by simp, fun _ => by simp⟩
  · exact ⟨fun _ => by simp, fun _ => by simp⟩
  · exact ⟨fun _ => by simp, fun _ => by simp⟩
  · exact ⟨fun _ => by simp, fun _ => by simp⟩

/-- ffprobe reporting a single 1920×1080 stream classifies as "16:9":
the floored ratio 1.77 lies inside the Landscape band. -/
theorem probe_1920_1080 :
    getVideoAspectRatio (FFProbeOutcome.streams [⟨1920, 1080⟩]) = .ok "16:9" := by
  unfold getVideoAspectRatio classifyRatio floorRatio
  norm_num

theorem envHappy_eval :
    handlerUploadVideo envHappy =
      ⟨200, [.classifyOk, .remuxOk, .putCall, .putSuccess, .updateCall, .updateSuccess],
        some ⟨"u1", some "bkt,landscape/abc.mp4"⟩, ["tmp", "tmp.processing"],
        ["tmp.processing", "tmp"]⟩ := by
  unfold handlerUploadVideo envHappy
  dsimp only
  rw [probe_1920_1080]
  decide

theorem envPutFail_eval :
    handlerUploadVideo envPutFail =
      ⟨500, [.classifyOk, .remuxOk, .putCall], some ⟨"u1", none⟩,
        ["tmp", "tmp.processing"], ["tmp.processing", "tmp"]⟩ := by
  unfold handlerUploadVideo envPutFail
  dsimp only
  rw [probe_1920_1080]
  decide

/-- Witness for C2: a run whose put fails has the full
classify-remux-put prefix in its trace, leaves the store unchanged,
never calls the metadata update and responds 500; a fully successful
run records a put success before its update call. -/
theorem handler_publish_ordering_witness :
    (∃ t, (handlerUploadVideo envPutFail).events =
      [Ev.classifyOk, Ev.remuxOk, Ev.putCall] ++ t) ∧
    ((handlerUploadVideo envPutFail).finalDB = envPutFail.dbVideo ∧
      Ev.updateCall ∉ (handlerUploadVideo envPutFail).events ∧
      (Ev.putCall ∈ (handlerUploadVideo envPutFail).events →
        (handlerUploadVideo envPutFail).status = 500)) ∧
    Ev.putSuccess ∈ (handlerUploadVideo envHappy).events :=
  ⟨(handler_publish_ordering envPutFail).1 (by rw [envPutFail_eval]; decide),
   (handler_publish_ordering envPutFail).2.1 rfl,
   (handler_publish_ordering envHappy).2.2 (by rw [envHappy_eval]; decide)⟩

theorem envLeak_eval :
    handlerUploadVideo envLeak =
      ⟨500, [.classifyOk], some ⟨"u1", none⟩, ["tmp", "tmp.processing"], ["tmp"]⟩ := by
  unfold handlerUploadVideo envLeak
  dsimp only
  rw [probe_1920_1080]
  decide

/-- C3 counterexample: when the remux process leaves an empty output
file, the ingestion errors with only the raw staged upload removed —
the `.processing` output file created during the ingestion survives
the request, so not every temporary file is deleted on every exit
path. -/
theorem tempfile_cleanup_counterexample :
    processedPathOf envLeak ∈ (handlerUploadVideo envLeak).created ∧
    processedPathOf envLeak ∉ (handlerUploadVideo envLeak).removed ∧
    (handlerUploadVideo envLeak).status = 500 := by
  rw [envLeak_eval]
  decide

/-- Witness for amended C3: the raw staged file is removed on a
staging failure, and the remux output is removed on a fully successful
run. -/
theorem tempfile_cleanup_amended_witness :
    "tmp" ∈ (handlerUploadVideo envCopyFail).removed ∧
    processedPathOf envHappy ∈ (handlerUploadVideo envHappy).removed :=
  ⟨(tempfile_cleanup_amended envCopyFail).1 (by decide),
   (tempfile_cleanup_amended envHappy).2 (by rw [envHappy_eval]; decide)⟩

/-- C4 counterexample: a body over the 1 GiB cap is rejected with HTTP
400 (the multipart parse fails on the capped reader), not with 413. -/
theorem oversize_status_counterexample :
    (handlerUploadVideo envTooLarge).status = 400 ∧
    ¬ (handlerUploadVideo envTooLarge).status = 413 := by
  decide

/-- C4 amended: for every otherwise-valid request whose body exceeds
the 1 GiB cap, multipart parsing fails and the handler responds 400
with no temp file created, no storage put, and the record store
unchanged. -/
theorem oversize_rejected (env : UploadEnv) (u : String) (v : Video)
    (h1 : env.videoIDOk = true) (h2 : env.tokenOk = true)
    (h3 : env.jwtUser = some u) (h4 : env.dbVideo = some v) (h5 : v.userID = u)
    (h6 : uploadLimit < env.bodyLength) :
    (handlerUploadVideo env).status = 400 ∧
    (handlerUploadVideo env).created = [] ∧
    Ev.putCall ∉ (handlerUploadVideo env).events ∧
    (handlerUploadVideo env).finalDB = env.dbVideo := by
  have heval : handlerUploadVideo env = ⟨400, [], env.dbVideo, [], []⟩ := by
    unfold handlerUploadVideo
    rw [if_neg (by simp [h1]), if_neg (by simp [h2]), h3]
    dsimp only
    rw [h4]
    dsimp only
    rw [if_neg (by simp [h5]), if_pos (Or.inl h6)]
  rw [heval]
  exact ⟨rfl, rfl, by simp, rfl⟩

/-- Witness for amended C4 at the concrete oversized request. -/
theorem oversize_rejected_witness :
    (handlerUploadVideo envTooLarge).status = 400 ∧
    (handlerUploadVideo envTooLarge).created = [] ∧
    Ev.putCall ∉ (handlerUploadVideo envTooLarge).events ∧
    (handlerUploadVideo envTooLarge).finalDB = envTooLarge.dbVideo :=
  oversize_rejected envTooLarge "u1" ⟨"u1", none⟩ rfl rfl rfl rfl rfl (by decide)

/-- C5: with a valid id and valid credentials but no record for the
target video id, the handler responds with HTTP 500 ("Couldn't find
video"), not 404 — the sibling thumbnail handler maps the identical
lookup failure to 404. -/
theorem missing_record_gives_500 :
    (handlerUploadVideo envMissing).status = 500 ∧
    ¬ (handlerUploadVideo envMissing).status = 404 := by
  decide

/-- C6: for every otherwise-valid request whose parsed media type is
not exactly "video/mp4", the handler rejects with 400 before creating
any temp file, with no storage put and the record store unchanged. -/
theorem wrong_media_type_rejected (env : UploadEnv) (u : String) (v : Video)
    (m : String)
    (h1 : env.videoIDOk = true) (h2 : env.tokenOk = true)
    (h3 : env.jwtUser = some u) (h4 : env.dbVideo = some v) (h5 : v.userID = u)
    (h6 : ¬ (uploadLimit < env.bodyLength ∨ env.formParseOk = false))
    (h7 : env.parsedMediaType = some m) (h8 : m ≠ "video/mp4") :
    (handlerUploadVideo env).status = 400 ∧
    (handlerUploadVideo env).created = [] ∧
    Ev.putCall ∉ (handlerUploadVideo env).events ∧
    (handlerUploadVideo env).finalDB = env.dbVideo := by
  have heval : handlerUploadVideo env = ⟨400, [], env.dbVideo, [], []⟩ := by
    unfold handlerUploadVideo
    rw [if_neg (by simp [h1]), if_neg (by simp [h2]), h3]
    dsimp only
    rw [h4]
    dsimp only
    rw [if_neg (by simp [h5]), if_neg h6, h7]
    dsimp only
    rw [if_pos h8]
  rw [heval]
  exact ⟨rfl, rfl, by simp, rfl⟩

/-- Witness for C6 at a concrete image/png request. -/
theorem wrong_media_type_rejected_witness :
    (handlerUploadVideo envPng).status = 400 ∧
    (handlerUploadVideo envPng).created = [] ∧
    Ev.putCall ∉ (handlerUploadVideo envPng).events ∧
    (handlerUploadVideo envPng).finalDB = envPng.dbVideo :=
  wrong_media_type_rejected envPng "u1" ⟨"u1", none⟩ "image/png" rfl rfl rfl rfl rfl
    (by decide) rfl (by decide)

end Tubely

